import Mathlib

/-!
Verification of the myodine establishment handshake and transfer-session glue.

The development shallowly embeds `src/myo_proto/establish.rs` and
`src/myo_proto/xfer/session.rs`.  Collaborating modules of the repository
that are not part of the provided sources (the `Domain` type of `dns_proto`,
the helpers of `myo_proto/util.rs`, the `dns_coding` byte codec, the record
code registry, the `WwrState` sliding-window transport and the `TcpChunker`
stream bridge) are modelled from the specification; each such definition
carries a doc comment saying so.
-/

namespace Myodine

/-- A DNS label, as the character sequence of one dot-separated component. -/
abbrev Label := List Char

/-- Modelled from the spec: a `Domain` is an ordered sequence of label
strings (DNS name components). -/
structure Domain where
  parts : List Label
deriving DecidableEq, Repr

/-- Modelled from the spec: `Domain::from_parts` assembles a domain from its
labels.  The DNS library's syntactic validation is out of scope, so the
operation is total here while keeping the fallible `Result` shape. -/
def Domain.from_parts (parts : List Label) : Except String Domain :=
  .ok ⟨parts⟩

/-- ASCII lowercasing of one label, the model of `domain_part_lowercase`
(modelled from the spec: protocol matching is case-insensitive). -/
def lowerLabel (l : Label) : Label :=
  l.map Char.toLower

/-- Modelled from the spec: `domain_ends_with d h` holds when `h` is a
label-wise, case-insensitive suffix of `d`. -/
def domain_ends_with (d h : Domain) : Bool :=
  decide (h.parts.length ≤ d.parts.length ∧
    (d.parts.map lowerLabel).drop (d.parts.length - h.parts.length) =
      h.parts.map lowerLabel)

/-! ### Numeric label parsing and formatting

Models of Rust's `str::parse::<u16>` / `u64::from_str_radix(_, 16)` and of
the `format!` decimal and `{:x}` hexadecimal renderings used by
`establish.rs`. -/

/-- Value of one digit character, as in Rust's `char::to_digit(radix)`. -/
def digitVal (radix : Nat) (c : Char) : Option Nat :=
  let v : Nat :=
    if '0' ≤ c ∧ c ≤ '9' then c.toNat - 48
    else if 'a' ≤ c ∧ c ≤ 'z' then c.toNat - 87
    else if 'A' ≤ c ∧ c ≤ 'Z' then c.toNat - 55
    else radix
  if v < radix then some v else none

/-- Drop one leading `'+'` sign, as Rust's unsigned `FromStr` does. -/
def stripSign (s : Label) : Label :=
  match s with
  | c :: rest => if c = '+' then rest else c :: rest
  | [] => []

/-- One step of digit accumulation during parsing. -/
def parseStep (radix : Nat) (acc : Option Nat) (c : Char) : Option Nat :=
  match acc, digitVal radix c with
  | some a, some d => some (a * radix + d)
  | _, _ => none

/-- Model of Rust's unsigned integer parsing in a given radix: an optional
leading `'+'`, then one or more digits, rejecting the empty string, any
non-digit, and any value reaching `bound` (the overflow error). -/
def parseUnsigned (radix bound : Nat) (s : Label) : Option Nat :=
  let t := stripSign s
  if t.isEmpty then none
  else
    (t.foldl (parseStep radix) (some 0)).bind
      (fun v => if v < bound then some v else none)

/-- Character for one digit value, lowercase above `9` as in `{:x}`. -/
def digitChar (d : Nat) : Char :=
  if d < 10 then Char.ofNat (48 + d) else Char.ofNat (87 + d)

/-- Little-endian digit list of `n` in the given radix, with explicit fuel
(the fuel is always instantiated with `n` itself, which suffices). -/
def digitsRevAux (radix : Nat) : Nat → Nat → List Nat
  | 0, _ => []
  | fuel + 1, n => if n = 0 then [] else n % radix :: digitsRevAux radix fuel (n / radix)

/-- Model of Rust's `format!` integer rendering in a given radix: no sign,
no leading zeros, `"0"` for zero, lowercase hexadecimal digits. -/
def fmtNat (radix n : Nat) : Label :=
  if n = 0 then ['0'] else ((digitsRevAux radix n n).map digitChar).reverse

/-! ### Round-trip facts about numeric labels -/

/-- Value of a little-endian digit list. -/
def ofDigitsLE (radix : Nat) (l : List Nat) : Nat :=
  l.foldr (fun d r => d + radix * r) 0

/-! ### The establishment query (from `src/myo_proto/establish.rs`) -/

/-- The contents of an establishment query (struct `EstablishQuery`). -/
structure EstablishQuery where
  response_encoding : Label
  mtu : Nat
  name_encoding : Label
  query_window : Nat
  response_window : Nat
  proof : Nat
  port : Nat
  host : Domain
deriving DecidableEq, Repr

/-- Decode an establishment query from a domain name
(`EstablishQuery::from_domain`). -/
def EstablishQuery.from_domain (domain host : Domain) : Except String EstablishQuery :=
  if ¬ domain_ends_with domain host then .error "incorrect host domain"
  else if domain.parts.length - host.parts.length < 8 then .error "not enough labels"
  else
    let hostParts := (domain.parts.take (domain.parts.length - host.parts.length)).drop 7
    match parseUnsigned 10 65536 (domain.parts.getD 1 []),
        parseUnsigned 10 65536 (domain.parts.getD 3 []),
        parseUnsigned 10 65536 (domain.parts.getD 4 []),
        parseUnsigned 16 (2 ^ 64) (domain.parts.getD 5 []),
        parseUnsigned 10 65536 (domain.parts.getD 6 []) with
    | some mtu, some query_window, some response_window, some proof, some port =>
      (Domain.from_parts hostParts).map (fun h =>
        { response_encoding := (lowerLabel (domain.parts.getD 0 [])).drop 1
          mtu := mtu
          name_encoding := lowerLabel (domain.parts.getD 2 [])
          query_window := query_window
          response_window := response_window
          proof := proof
          port := port
          host := h })
    | _, _, _, _, _ => .error "invalid number in domain"

/-- Encode the request into a domain name (`EstablishQuery::to_domain`). -/
def EstablishQuery.to_domain (q : EstablishQuery) (host : Domain) : Except String Domain :=
  Domain.from_parts
    (('e' :: q.response_encoding) ::
      fmtNat 10 q.mtu ::
      q.name_encoding ::
      fmtNat 10 q.query_window ::
      fmtNat 10 q.response_window ::
      fmtNat 16 q.proof ::
      fmtNat 10 q.port ::
      (q.host.parts ++ host.parts))

/-! ### DNS message model

The `Header` type is embedded from `src/dns_proto/header.rs`; `Question`,
`Record` and `Message` are repository types not among the provided sources
and are modelled from the spec. -/

/-- DNS opcode (from `src/dns_proto/header.rs`). -/
inductive Opcode where
  | Query
  | IQuery
  | Status
  | Notify
  | Update
  | Unknown (x : Nat)
deriving DecidableEq, Repr

/-- DNS response code (from `src/dns_proto/header.rs`). -/
inductive ResponseCode where
  | NoError
  | FormatError
  | ServerFailure
  | NXDomain
  | NotImplemented
  | Refused
  | YXDomain
  | YXRRSet
  | NXRRSet
  | NotAuth
  | NotZone
  | Unknown (x : Nat)
deriving DecidableEq, Repr

/-- DNS message header (struct `Header` of `src/dns_proto/header.rs`). -/
structure Header where
  identifier : Nat
  is_response : Bool
  opcode : Opcode
  authoritative : Bool
  truncated : Bool
  recursion_desired : Bool
  recursion_available : Bool
  response_code : ResponseCode
  question_count : Nat
  answer_count : Nat
  authority_count : Nat
  additional_count : Nat
deriving DecidableEq, Repr

/-- Modelled from the spec: a DNS record type code. -/
abbrev RecordType := Nat

/-- Modelled from the spec: a DNS record class code. -/
abbrev RecordClass := Nat

/-- Modelled from the spec: one question of a DNS message. -/
structure Question where
  domain : Domain
  record_type : RecordType
  record_class : RecordClass
deriving DecidableEq, Repr

instance : Inhabited Question := ⟨⟨⟨[]⟩, 0, 0⟩⟩

/-- Modelled from the spec: the header of a DNS resource record. -/
structure RecordHeader where
  domain : Domain
  record_type : RecordType
  record_class : RecordClass
  ttl : Nat
deriving DecidableEq, Repr

/-- Modelled from the spec: a DNS resource record with its opaque body. -/
structure Record where
  header : RecordHeader
  body : List Nat
deriving DecidableEq, Repr

/-- Modelled from the spec: a DNS message as the typed container the DNS
library exposes. -/
structure Message where
  header : Header
  questions : List Question
  answers : List Record
  authorities : List Record
  additional : List Record
deriving DecidableEq, Repr

/-- Modelled from the spec: `is_api_query` holds when the first question's
domain begins with the reserved API marker, case-insensitively. -/
def is_api_query (query : Message) (marker : Char) : Bool :=
  match query.questions with
  | [] => false
  | q :: _ =>
    match q.domain.parts with
    | [] => false
    | [] :: _ => false
    | (c :: _) :: _ => c.toLower == marker

/-- Check if a DNS message is an establishment API call
(`is_establish_query`). -/
def is_establish_query (query : Message) : Bool :=
  is_api_query query 'e'

/-- Decode an establishment query from a message
(`EstablishQuery::from_query`). -/
def EstablishQuery.from_query (query : Message) (host : Domain) :
    Except String EstablishQuery :=
  if ¬ is_establish_query query then .error "not an establish query"
  else EstablishQuery.from_domain (query.questions.headD default).domain host

/-! ### SHA-1 (model of the external `sha1` crate) and the password proof -/

/-- Big-endian byte rendering of `v` on `n` bytes. -/
def beBytes : Nat → Nat → List Nat
  | 0, _ => []
  | n + 1, v => (v / 2 ^ (8 * n)) % 256 :: beBytes n v

/-- Rotate a 32-bit word left by `n` bits. -/
def rotl32 (n x : Nat) : Nat :=
  ((x <<< n) ||| (x >>> (32 - n))) % 2 ^ 32

/-- The sixteen initial big-endian 32-bit words of one 64-byte chunk. -/
def sha1Words (chunk : List Nat) : List Nat :=
  (List.range 16).map (fun i =>
    (chunk.getD (4 * i) 0 % 256) * 2 ^ 24 + (chunk.getD (4 * i + 1) 0 % 256) * 2 ^ 16 +
      (chunk.getD (4 * i + 2) 0 % 256) * 2 ^ 8 + chunk.getD (4 * i + 3) 0 % 256)

/-- Message-schedule extension to eighty words. -/
def sha1Extend (ws : List Nat) : List Nat :=
  (List.range 64).foldl
    (fun a _ =>
      a ++ [rotl32 1 ((a.getD (a.length - 3) 0) ^^^ (a.getD (a.length - 8) 0) ^^^
        (a.getD (a.length - 14) 0) ^^^ (a.getD (a.length - 16) 0))])
    ws

/-- One SHA-1 round. -/
def sha1Round (st : Nat × Nat × Nat × Nat × Nat) (iw : Nat × Nat) :
    Nat × Nat × Nat × Nat × Nat :=
  let (i, w) := iw
  let (a, b, c, d, e) := st
  let f :=
    if i < 20 then (b &&& c) ||| ((b ^^^ 0xFFFFFFFF) &&& d)
    else if i < 40 then b ^^^ c ^^^ d
    else if i < 60 then (b &&& c) ||| (b &&& d) ||| (c &&& d)
    else b ^^^ c ^^^ d
  let k :=
    if i < 20 then 0x5A827999
    else if i < 40 then 0x6ED9EBA1
    else if i < 60 then 0x8F1BBCDC
    else 0xCA62C1D6
  let temp := (rotl32 5 a + f + e + k + w) % 2 ^ 32
  (temp, a, rotl32 30 b, c, d)

/-- Compression of one 64-byte chunk into the running state. -/
def sha1Chunk (h : Nat × Nat × Nat × Nat × Nat) (chunk : List Nat) :
    Nat × Nat × Nat × Nat × Nat :=
  let ws := sha1Extend (sha1Words chunk)
  let (h0, h1, h2, h3, h4) := h
  let (a, b, c, d, e) := ((List.range 80).zip ws).foldl sha1Round (h0, h1, h2, h3, h4)
  ((h0 + a) % 2 ^ 32, (h1 + b) % 2 ^ 32, (h2 + c) % 2 ^ 32, (h3 + d) % 2 ^ 32,
    (h4 + e) % 2 ^ 32)

/-- Split a byte list into chunks of 64 bytes. -/
def chunks64 : List Nat → List (List Nat)
  | [] => []
  | b :: rest => ((b :: rest).take 64) :: chunks64 ((b :: rest).drop 64)
termination_by l => l.length
decreasing_by simp [List.length_drop]; omega

/-- SHA-1 padding: a `0x80` byte, zeros to 56 mod 64, and the 64-bit
big-endian bit length. -/
def sha1Pad (msg : List Nat) : List Nat :=
  msg ++ [0x80] ++ List.replicate ((64 - ((msg.length + 9) % 64)) % 64) 0 ++
    beBytes 8 ((8 * msg.length) % 2 ^ 64)

/-- The twenty SHA-1 digest bytes of a byte message. -/
def sha1 (msg : List Nat) : List Nat :=
  match (chunks64 (sha1Pad msg)).foldl sha1Chunk
      (0x67452301, 0xEFCDAB89, 0x98BADCFE, 0x10325476, 0xC3D2E1F0) with
  | (h0, h1, h2, h3, h4) =>
    beBytes 4 h0 ++ beBytes 4 h1 ++ beBytes 4 h2 ++ beBytes 4 h3 ++ beBytes 4 h4

/-- UTF-8 bytes of the decimal rendering of `n`, as `format!` produces. -/
def asciiDecimal (n : Nat) : List Nat :=
  (fmtNat 10 n).map Char.toNat

/-- Produce proof of knowledge of the password at an epoch second
(`password_proof`); the password is given by its UTF-8 bytes. -/
def password_proof (password : List Nat) (cur_time : Nat) : Nat :=
  let hash := sha1 (password ++ asciiDecimal cur_time ++ password)
  ((hash.getD 0 0) <<< 56) ||| ((hash.getD 1 0) <<< 48) ||| ((hash.getD 2 0) <<< 40) |||
    ((hash.getD 3 0) <<< 32) ||| ((hash.getD 4 0) <<< 24) ||| ((hash.getD 5 0) <<< 16) |||
    ((hash.getD 6 0) <<< 8) ||| (hash.getD 7 0)

/-- Check the password proof in the query (`EstablishQuery::check_proof`).
The `u64` range `(cur_time - window)..(cur_time + window)` panics when the
subtraction underflows or the addition overflows, which `none` models. -/
def EstablishQuery.check_proof (q : EstablishQuery) (password : List Nat)
    (cur_time window : Nat) : Option Bool :=
  if window ≤ cur_time ∧ cur_time + window < 2 ^ 64 then
    some ((List.range' (cur_time - window) (2 * window)).any
      (fun i => q.proof == password_proof password i))
  else none

/-! ### The establishment response and its wire codec

`EstablishResponse` and its `Encoder`/`Decoder` impls come from
`src/myo_proto/establish.rs`.  The primitive byte codec of `dns_coding`
(`u8`/`u16`/`u32` fields and raw byte runs in a packet of bytes) is
modelled from the spec's big-endian field layout; a decoder consumes a
prefix of the remaining bytes.  A failure message is represented by the
UTF-8 bytes of the Rust `String` holding it. -/

/-- A response to an establishment query (enum `EstablishResponse`). -/
inductive EstablishResponse where
  | Success (id : Nat) (seq : Nat)
  | Failure (message : List Nat)
  | Unknown (code : Nat)
deriving DecidableEq, Repr

/-- Modelled from the spec: decode one byte from the packet. -/
def decU8 : List Nat → Except String (Nat × List Nat)
  | [] => .error "buffer underflow"
  | b :: rest => .ok (b, rest)

/-- Modelled from the spec: decode a big-endian 16-bit field. -/
def decU16 : List Nat → Except String (Nat × List Nat)
  | b0 :: b1 :: rest => .ok (b0 * 256 + b1, rest)
  | _ => .error "buffer underflow"

/-- Modelled from the spec: decode a big-endian 32-bit field. -/
def decU32 : List Nat → Except String (Nat × List Nat)
  | b0 :: b1 :: b2 :: b3 :: rest =>
    .ok (((b0 * 256 + b1) * 256 + b2) * 256 + b3, rest)
  | _ => .error "buffer underflow"

/-- Length in bytes of the leading well-formed UTF-8 sequence, if any. -/
def utf8SeqLen (l : List Nat) : Option Nat :=
  match l with
  | [] => none
  | b0 :: rest =>
    if b0 < 0x80 then some 1
    else if 0xC2 ≤ b0 ∧ b0 ≤ 0xDF then
      if 1 ≤ rest.length ∧ 0x80 ≤ rest.getD 0 0 ∧ rest.getD 0 0 ≤ 0xBF then some 2
      else none
    else if 0xE0 ≤ b0 ∧ b0 ≤ 0xEF then
      let lo1 := if b0 = 0xE0 then 0xA0 else 0x80
      let hi1 := if b0 = 0xED then 0x9F else 0xBF
      if 2 ≤ rest.length ∧ lo1 ≤ rest.getD 0 0 ∧ rest.getD 0 0 ≤ hi1 ∧
          0x80 ≤ rest.getD 1 0 ∧ rest.getD 1 0 ≤ 0xBF then some 3
      else none
    else if 0xF0 ≤ b0 ∧ b0 ≤ 0xF4 then
      let lo1 := if b0 = 0xF0 then 0x90 else 0x80
      let hi1 := if b0 = 0xF4 then 0x8F else 0xBF
      if 3 ≤ rest.length ∧ lo1 ≤ rest.getD 0 0 ∧ rest.getD 0 0 ≤ hi1 ∧
          0x80 ≤ rest.getD 1 0 ∧ rest.getD 1 0 ≤ 0xBF ∧
          0x80 ≤ rest.getD 2 0 ∧ rest.getD 2 0 ≤ 0xBF then some 4
      else none
    else none

/-- Modelled from the spec: lossy UTF-8 decoding with explicit fuel;
well-formed sequences are kept, anything else becomes U+FFFD. -/
def utf8LossyAux : Nat → List Nat → List Nat
  | 0, _ => []
  | _ + 1, [] => []
  | fuel + 1, b :: rest =>
    match utf8SeqLen (b :: rest) with
    | some k => (b :: rest).take k ++ utf8LossyAux fuel ((b :: rest).drop k)
    | none => [0xEF, 0xBF, 0xBD] ++ utf8LossyAux fuel rest

/-- Modelled from the spec: the bytes of `String::from_utf8_lossy`. -/
def utf8Lossy (l : List Nat) : List Nat :=
  utf8LossyAux l.length l

/-- Validity of a byte list as UTF-8, with explicit fuel. -/
def validUtf8Aux : Nat → List Nat → Bool
  | 0, _ => true
  | _ + 1, [] => true
  | fuel + 1, b :: rest =>
    match utf8SeqLen (b :: rest) with
    | some k => validUtf8Aux fuel ((b :: rest).drop k)
    | none => false

/-- Validity of a byte list as UTF-8. -/
def validUtf8 (l : List Nat) : Bool :=
  validUtf8Aux l.length l

/-- Decode an establishment response from a record body
(`impl Decoder for EstablishResponse`); the tail of the pair is the
unconsumed remainder of the packet. -/
def EstablishResponse.dns_decode (packet : List Nat) :
    Except String (EstablishResponse × List Nat) :=
  match decU8 packet with
  | .error e => .error e
  | .ok (tag, rest) =>
    match tag with
    | 0 =>
      match decU16 rest with
      | .error e => .error e
      | .ok (session_id, rest) =>
        match decU32 rest with
        | .error e => .error e
        | .ok (seq_num, rest) => .ok (.Success session_id seq_num, rest)
    | 1 => .ok (.Failure (utf8Lossy rest), [])
    | x => .ok (.Unknown x, [])

/-- Encode an establishment response into bytes
(`impl Encoder for EstablishResponse`). -/
def EstablishResponse.dns_encode : EstablishResponse → Except String (List Nat)
  | .Success id seq =>
    .ok [0, id / 2 ^ 8 % 256, id % 256, seq / 2 ^ 24 % 256, seq / 2 ^ 16 % 256,
      seq / 2 ^ 8 % 256, seq % 256]
  | .Failure message => .ok (1 :: message)
  | .Unknown _ => .error "cannot encode unknown establish response"

/-! ### Building the establishment response message -/

/-- Modelled from the spec: a record code packs a byte payload into one
record type's representation; only the encoding direction is used here. -/
structure RecordCode where
  encode_body : List Nat → Except String (List Nat)

/-- Produce a response message for an establishment request
(`establish_response`).  The record-code registry `get_record_code` is a
repository module outside the provided sources, so the spec's registry is
passed explicitly as the lookup function `reg`. -/
def establish_response (reg : RecordType → Label → Option RecordCode)
    (query : Message) (host : Domain) (resp : EstablishResponse) :
    Except String Message :=
  match EstablishQuery.from_query query host with
  | .error e => .error e
  | .ok equery =>
    let question := query.questions.headD default
    match reg question.record_type equery.response_encoding with
    | none => .error "no response encoding"
    | some code =>
      match EstablishResponse.dns_encode resp with
      | .error e => .error e
      | .ok bytes =>
        match code.encode_body bytes with
        | .error e => .error e
        | .ok body =>
          .ok { query with
            answers := query.answers ++
              [{ header := { domain := question.domain
                             record_type := question.record_type
                             record_class := question.record_class
                             ttl := 0 }
                 body := body }]
            header := { query.header with answer_count := 1, is_response := true } }

/-! ### The transfer session glue (from `src/myo_proto/xfer/session.rs`) -/

/-- A sequenced slice of stream bytes (struct `Chunk` of the transfer
types). -/
structure Chunk where
  seq : Nat
  data : List Nat
deriving DecidableEq, Repr

/-- The per-exchange unit: one cumulative ack and at most one chunk
(struct `Packet` of the transfer types, modelled from the spec). -/
structure Packet where
  ack : Nat
  chunk : Option Chunk
deriving DecidableEq, Repr

/-- Modelled from the spec: the sliding-window transport state
(`WwrState`). -/
structure WwrState where
  send_base : Nat
  send_next : Nat
  send_buffer : List Nat
  recv_next : Nat
  recv_buffer : List Chunk
  finished : Bool
deriving DecidableEq, Repr

/-- Modelled from the spec: `handleAck` advances `sendBase` to
`max(sendBase, ack)` and never regresses. -/
def WwrState.handle_ack (s : WwrState) (ack : Nat) : WwrState :=
  { s with send_base := max s.send_base ack }

/-- Drain the maximal gap-free run starting at `next` out of the sparse
buffer, stopping at (and including) a zero-length chunk.  Returns the
drained run, the remaining buffer, the advanced `next`, and whether the
end-of-stream sentinel was delivered. -/
def drainAux : Nat → List Chunk → Nat → List Chunk × List Chunk × Nat × Bool
  | 0, buf, next => ([], buf, next, false)
  | fuel + 1, buf, next =>
    match buf.find? (fun c => c.seq == next) with
    | none => ([], buf, next, false)
    | some c =>
      let buf' := buf.filter (fun c2 => c2.seq ≠ next)
      if c.data = [] then ([c], buf', next + 1, true)
      else
        match drainAux fuel buf' (next + 1) with
        | (out, buf'', next', fin) => (c :: out, buf'', next', fin)

/-- Modelled from the spec: `handleChunk` discards duplicates below
`recvNext`, refuses chunks after the end-of-stream latch, and otherwise
stores the chunk and drains the contiguous run starting at `recvNext`. -/
def WwrState.handle_chunk (s : WwrState) (c : Chunk) : WwrState × List Chunk :=
  if s.finished then (s, [])
  else if c.seq < s.recv_next then (s, [])
  else
    let buf := c :: s.recv_buffer
    match drainAux buf.length buf s.recv_next with
    | (out, buf', next', fin) =>
      ({ s with recv_buffer := buf', recv_next := next', finished := fin }, out)

/-- Modelled from the spec: the TCP-side stream bridge (`TcpChunker`),
recorded by its observable interactions: whether it can accept bytes,
the byte runs passed to `send`, and whether `send_finished` was called. -/
structure TcpChunker where
  can_send_now : Bool
  sent : List (List Nat)
  finished_sent : Bool
deriving DecidableEq, Repr

/-- Modelled from the spec: `canSend` of the stream bridge. -/
def TcpChunker.can_send (c : TcpChunker) : Bool :=
  c.can_send_now

/-- Modelled from the spec: `send` forwards one byte run to the TCP side. -/
def TcpChunker.send (c : TcpChunker) (data : List Nat) : TcpChunker :=
  { c with sent := c.sent ++ [data] }

/-- Modelled from the spec: `sendFinished` signals end of stream to the
TCP side. -/
def TcpChunker.send_finished (c : TcpChunker) : TcpChunker :=
  { c with finished_sent := true }

/-- The body of `handle_packet_in`'s for-loop over the drained chunks:
concatenate data, stopping at (and discarding everything after) the first
zero-length chunk; the flag records whether one was seen. -/
def collectChunks : List Chunk → List Nat × Bool
  | [] => ([], false)
  | c :: rest =>
    if c.data.length = 0 then ([], true)
    else
      match collectChunks rest with
      | (buffer, fin) => (c.data ++ buffer, fin)

/-- Process one inbound packet (`handle_packet_in`). -/
def handle_packet_in (packet : Packet) (state : WwrState) (conn : TcpChunker) :
    WwrState × TcpChunker :=
  let state := state.handle_ack packet.ack
  if conn.can_send then
    match packet.chunk with
    | some c =>
      match state.handle_chunk c with
      | (state, chunks) =>
        match collectChunks chunks with
        | (buffer, finished) =>
          let conn := if buffer.length > 0 then conn.send buffer else conn
          let conn := if finished then conn.send_finished else conn
          (state, conn)
    | none => (state, conn)
  else (state, conn)

/-! ### Specification-side helper definitions used by theorem statements -/

/-- Big-endian value of a byte list (the spec's reading of the first digest
bytes). -/
def beWord (bytes : List Nat) : Nat :=
  bytes.foldl (fun a b => a * 256 + b) 0

/-- The spec's description of the buffer forwarded by `handle_packet_in`:
the concatenated data of the drained run up to the first zero-length
chunk. -/
def specDrainBuffer (cs : List Chunk) : List Nat :=
  ((cs.takeWhile (fun ch => ¬ ch.data = [])).map Chunk.data).flatten

/-- The spec's description of when `handle_packet_in` signals end of
stream: a zero-length chunk occurs in the drained run. -/
def specSawEof (cs : List Chunk) : Bool :=
  cs.any (fun ch => ch.data = [])

/-! ### The conformance fixture of `establish.rs`'s tests -/

/-- The fixture domain `eraw.123.b64.64.32.913379.1337.foo.bob.com.baz.proxy.com`. -/
def exampleDomain : Domain :=
  ⟨["eraw".data, "123".data, "b64".data, "64".data, "32".data, "913379".data,
    "1337".data, "foo".data, "bob".data, "com".data, "baz".data, "proxy".data,
    "com".data]⟩

/-- The fixture server root `baz.proxy.com`. -/
def exampleRoot : Domain :=
  ⟨["baz".data, "proxy".data, "com".data]⟩

/-- The fixture query of the conformance tests. -/
def exampleQuery : EstablishQuery :=
  { response_encoding := "raw".data
    mtu := 123
    name_encoding := "b64".data
    query_window := 64
    response_window := 32
    proof := 0x913379
    port := 1337
    host := ⟨["foo".data, "bob".data, "com".data]⟩ }
/-- The fixed seven labels of an establishment domain followed by the
target-host labels; `to_domain` appends the server root to these. -/
def buildPre (q : EstablishQuery) : List Label :=
  ('e' :: q.response_encoding) ::
    fmtNat 10 q.mtu ::
    q.name_encoding ::
    fmtNat 10 q.query_window ::
    fmtNat 10 q.response_window ::
    fmtNat 16 q.proof ::
    fmtNat 10 q.port ::
    q.host.parts

/-- All labels of the domain built by `to_domain`. -/
def buildLabels (q : EstablishQuery) (root : Domain) : List Label :=
  buildPre q ++ root.parts

theorem ofDigitsLE_digitsRevAux (radix : Nat) (h2 : 2 ≤ radix) :
    ∀ fuel n, n ≤ fuel → ofDigitsLE radix (digitsRevAux radix fuel n) = n := by
  intro fuel
  induction fuel with
  | zero =>
    intro n hn
    interval_cases n
    simp [digitsRevAux, ofDigitsLE]
  | succ fuel ih =>
    intro n hn
    by_cases h0 : n = 0
    · simp [digitsRevAux, h0, ofDigitsLE]
    · have hdiv : n / radix ≤ fuel := by
        have : n / radix < n := Nat.div_lt_self (Nat.pos_of_ne_zero h0) h2
        omega
      simp only [digitsRevAux, h0, if_false, ofDigitsLE, List.foldr_cons]
      have h := ih (n / radix) hdiv
      simp only [ofDigitsLE] at h
      rw [h, Nat.mod_add_div]

theorem digitsRevAux_lt (radix : Nat) (h2 : 2 ≤ radix) :
    ∀ fuel n d, d ∈ digitsRevAux radix fuel n → d < radix := by
  intro fuel
  induction fuel with
  | zero => intro n d hd; simp [digitsRevAux] at hd
  | succ fuel ih =>
    intro n d hd
    by_cases h0 : n = 0
    · simp [digitsRevAux, h0] at hd
    · simp only [digitsRevAux, h0, if_false, List.mem_cons] at hd
      rcases hd with h | h
      · subst h; exact Nat.mod_lt _ (by omega)
      · exact ih _ _ h

theorem digitsRevAux_ne_nil (radix : Nat) (fuel n : Nat) (h0 : n ≠ 0) (hn : n ≤ fuel) :
    digitsRevAux radix fuel n ≠ [] := by
  cases fuel with
  | zero => omega
  | succ fuel => simp [digitsRevAux, h0]

theorem digitVal_digitChar10 : ∀ d, d < 10 → digitVal 10 (digitChar d) = some d := by
  decide

theorem digitVal_digitChar16 : ∀ d, d < 16 → digitVal 16 (digitChar d) = some d := by
  decide

theorem digitChar_ne_plus : ∀ d, d < 16 → digitChar d ≠ '+' := by
  decide

theorem foldl_parseStep_digits (radix : Nat)
    (hdig : ∀ d, d < radix → digitVal radix (digitChar d) = some d) :
    ∀ (ds : List Nat) (acc : Nat), (∀ d ∈ ds, d < radix) →
      List.foldl (parseStep radix) (some acc) (ds.map digitChar)
        = some (List.foldl (fun a d => a * radix + d) acc ds) := by
  intro ds
  induction ds with
  | nil => simp
  | cons d ds ih =>
    intro acc h
    have hd : d < radix := h d (by simp)
    simp only [List.map_cons, List.foldl_cons, parseStep, hdig d hd]
    exact ih (acc * radix + d) (fun x hx => h x (by simp [hx]))

theorem foldl_reverse_ofDigitsLE (radix : Nat) (l : List Nat) :
    List.foldl (fun a d => a * radix + d) 0 l.reverse = ofDigitsLE radix l := by
  rw [List.foldl_reverse]
  induction l with
  | nil => rfl
  | cons d l ih =>
    simp only [List.foldr_cons, ofDigitsLE] at *
    rw [ih]
    ring

theorem stripSign_fmtNat (radix n : Nat) (h2 : 2 ≤ radix) (hr : radix ≤ 16) :
    stripSign (fmtNat radix n) = fmtNat radix n := by
  by_cases h0 : n = 0
  · subst h0; simp [fmtNat, stripSign]
  · have hne : ((digitsRevAux radix n n).map digitChar).reverse ≠ [] := by
      simp [digitsRevAux_ne_nil radix n n h0 (le_refl n)]
    rcases hl : ((digitsRevAux radix n n).map digitChar).reverse with _ | ⟨c, rest⟩
    · exact absurd hl hne
    · have hc : c ∈ ((digitsRevAux radix n n).map digitChar).reverse := by
        rw [hl]; simp
      rw [List.mem_reverse, List.mem_map] at hc
      obtain ⟨d, hd, rfl⟩ := hc
      have hdlt : d < 16 :=
        lt_of_lt_of_le (digitsRevAux_lt radix h2 n n d hd) hr
      simp [fmtNat, h0, hl, stripSign, digitChar_ne_plus d hdlt]

theorem parseUnsigned_fmtNat (radix bound n : Nat) (h2 : 2 ≤ radix) (hr : radix ≤ 16)
    (hdig : ∀ d, d < radix → digitVal radix (digitChar d) = some d)
    (hn : n < bound) : parseUnsigned radix bound (fmtNat radix n) = some n := by
  unfold parseUnsigned
  rw [stripSign_fmtNat radix n h2 hr]
  by_cases h0 : n = 0
  · subst h0
    have hd0 : digitVal radix '0' = some 0 := by
      simpa [digitChar] using hdig 0 (by omega)
    simp [fmtNat, parseStep, hd0, hn]
  · have hmapping : fmtNat radix n = ((digitsRevAux radix n n).reverse).map digitChar := by
      simp [fmtNat, h0, List.map_reverse]
    have hne : ((digitsRevAux radix n n).reverse).map digitChar ≠ [] := by
      simp [digitsRevAux_ne_nil radix n n h0 (le_refl n)]
    have hEmpty : (((digitsRevAux radix n n).reverse).map digitChar).isEmpty = false := by
      rcases h : ((digitsRevAux radix n n).reverse).map digitChar with _ | ⟨c, cs⟩
      · exact absurd h hne
      · rfl
    have hfold := foldl_parseStep_digits radix hdig (digitsRevAux radix n n).reverse 0
      (fun d hd => digitsRevAux_lt radix h2 n n d (List.mem_reverse.mp hd))
    rw [hmapping]
    simp only [hEmpty, Bool.false_eq_true, if_false, hfold,
      foldl_reverse_ofDigitsLE, ofDigitsLE_digitsRevAux radix h2 n n (le_refl n)]
    simp [hn]


/-! ### Claims about the establishment response codec -/

/-- C6: encoding `EstablishResponse::Unknown(x)` fails with an error for
every tag `x`, while decoding a body whose first byte is any tag other than
`0` or `1` succeeds and yields `Unknown` carrying exactly that tag byte. -/
theorem claim_C6_unknown_response_codec :
    (∀ x, EstablishResponse.dns_encode (.Unknown x) =
      .error "cannot encode unknown establish response") ∧
    (∀ t rest, t ≠ 0 → t ≠ 1 →
      EstablishResponse.dns_decode (t :: rest) = .ok (.Unknown t, [])) := by
  constructor
  · intro x; rfl
  · intro t rest h0 h1
    cases t with
    | zero => exact absurd rfl h0
    | succ t1 =>
      cases t1 with
      | zero => exact absurd rfl h1
      | succ t2 => rfl

/-- Witness for C6 at tag `7` and remainder `[1, 2]`. -/
theorem claim_C6_unknown_response_codec_witness :
    EstablishResponse.dns_encode (.Unknown 7) =
      .error "cannot encode unknown establish response" ∧
    EstablishResponse.dns_decode (7 :: [1, 2]) = .ok (.Unknown 7, []) :=
  ⟨claim_C6_unknown_response_codec.1 7,
    claim_C6_unknown_response_codec.2 7 [1, 2] (by decide) (by decide)⟩

/-! ### Claims about the password proof check -/

/-- C9: `check_proof` computes its candidate range with the `u64`
subtraction `cur_time - window`, so the call is well-defined only when the
range arithmetic stays inside `u64`: with `window > cur_time` the
subtraction underflows and the modelled computation is `none`, while under
`window ≤ cur_time` (and no overflow of `cur_time + window`) it is total. -/
theorem claim_C9_check_proof_underflow (q : EstablishQuery) (password : List Nat)
    (cur_time window : Nat) :
    (cur_time < window → q.check_proof password cur_time window = none) ∧
    (window ≤ cur_time → cur_time + window < 2 ^ 64 →
      (q.check_proof password cur_time window).isSome = true) := by
  constructor
  · intro h
    rw [EstablishQuery.check_proof, if_neg (by omega)]
  · intro h1 h2
    rw [EstablishQuery.check_proof, if_pos ⟨h1, h2⟩]
    rfl

/-- Witness for C9: underflow at `cur_time = 0, window = 1`; totality at
`cur_time = 5, window = 0`. -/
theorem claim_C9_check_proof_underflow_witness :
    (⟨[], 0, [], 0, 0, 0, 0, ⟨[]⟩⟩ :
      EstablishQuery).check_proof [] 0 1 = none ∧
    ((⟨[], 0, [], 0, 0, 0, 0, ⟨[]⟩⟩ :
      EstablishQuery).check_proof [] 5 0).isSome = true :=
  ⟨(claim_C9_check_proof_underflow _ [] 0 1).1 (by decide),
    (claim_C9_check_proof_underflow _ [] 5 0).2 (by decide) (by decide)⟩

/-- C2: under the definedness precondition of the `u64` range arithmetic,
`check_proof(password, t0, w)` is true exactly when the query's proof
equals `password_proof(password, t)` for some `t` in `[t0 - w, t0 + w)`. -/
theorem claim_C2_check_proof_range (q : EstablishQuery) (password : List Nat)
    (t0 w : Nat) (h1 : w ≤ t0) (h2 : t0 + w < 2 ^ 64) :
    q.check_proof password t0 w = some true ↔
      ∃ t, t0 - w ≤ t ∧ t < t0 + w ∧ q.proof = password_proof password t := by
  rw [EstablishQuery.check_proof, if_pos ⟨h1, h2⟩]
  simp only [Option.some_inj, List.any_eq_true, List.mem_range'_1, beq_iff_eq]
  constructor
  · rintro ⟨i, ⟨hlo, hhi⟩, hp⟩
    exact ⟨i, hlo, by omega, hp⟩
  · rintro ⟨t, hlo, hhi, hp⟩
    exact ⟨t, ⟨hlo, by omega⟩, hp⟩

/-- Witness for C2 at `t0 = 5, w = 0`: the interval is empty and the check
is not `some true`. -/
theorem claim_C2_check_proof_range_witness :
    ((⟨[], 0, [], 0, 0, 0, 0, ⟨[]⟩⟩ :
      EstablishQuery).check_proof [] 5 0 = some true ↔
      ∃ t, 5 - 0 ≤ t ∧ t < 5 + 0 ∧
        (⟨[], 0, [], 0, 0, 0, 0, ⟨[]⟩⟩ : EstablishQuery).proof =
          password_proof [] t) :=
  claim_C2_check_proof_range _ [] 5 0 (by decide) (by decide)

/-! ### Claims about the packet-in glue -/

/-- C10: with `can_send()` false, `handle_packet_in` still applies the ack
to the transport but never touches `handle_chunk` or the bridge: the result
is exactly the ack update, whose receive side is unchanged. -/
theorem claim_C10_no_can_send (p : Packet) (s : WwrState) (conn : TcpChunker)
    (h : conn.can_send = false) :
    handle_packet_in p s conn = (s.handle_ack p.ack, conn) ∧
    (s.handle_ack p.ack).recv_next = s.recv_next ∧
    (s.handle_ack p.ack).recv_buffer = s.recv_buffer ∧
    (s.handle_ack p.ack).finished = s.finished := by
  refine ⟨?_, rfl, rfl, rfl⟩
  simp [handle_packet_in, h]

/-- Witness for C10 on a packet carrying a chunk and a closed bridge. -/
theorem claim_C10_no_can_send_witness :
    handle_packet_in ⟨3, some ⟨0, [1, 2]⟩⟩ ⟨0, 0, [], 0, [], false⟩
        ⟨false, [], false⟩ =
      ((⟨0, 0, [], 0, [], false⟩ : WwrState).handle_ack 3, ⟨false, [], false⟩) ∧
    ((⟨0, 0, [], 0, [], false⟩ : WwrState).handle_ack 3).recv_next =
      (⟨0, 0, [], 0, [], false⟩ : WwrState).recv_next ∧
    ((⟨0, 0, [], 0, [], false⟩ : WwrState).handle_ack 3).recv_buffer =
      (⟨0, 0, [], 0, [], false⟩ : WwrState).recv_buffer ∧
    ((⟨0, 0, [], 0, [], false⟩ : WwrState).handle_ack 3).finished =
      (⟨0, 0, [], 0, [], false⟩ : WwrState).finished :=
  claim_C10_no_can_send ⟨3, some ⟨0, [1, 2]⟩⟩ ⟨0, 0, [], 0, [], false⟩
    ⟨false, [], false⟩ (by decide)

theorem collectChunks_eq (cs : List Chunk) :
    collectChunks cs = (specDrainBuffer cs, specSawEof cs) := by
  induction cs with
  | nil => rfl
  | cons c rest ih =>
    by_cases hc : c.data = []
    · simp [collectChunks, hc, specDrainBuffer, specSawEof, List.takeWhile_cons]
    · simp [collectChunks, hc, specDrainBuffer, specSawEof, List.takeWhile_cons,
        ih, List.length_eq_zero]

/-- C5: `handle_packet_in` always feeds the packet's ack to `handle_ack`;
only when the bridge can send and a chunk is present does it drain
`handle_chunk`, concatenating the run up to (and discarding everything
after) the first zero-length chunk, calling `send` only on a non-empty
buffer and `send_finished` exactly when a zero-length chunk was drained. -/
theorem claim_C5_handle_packet_in (p : Packet) (s : WwrState) (conn : TcpChunker) :
    (conn.can_send = false ∨ p.chunk = none →
      handle_packet_in p s conn = (s.handle_ack p.ack, conn)) ∧
    (∀ c, conn.can_send = true → p.chunk = some c →
      handle_packet_in p s conn =
        (((s.handle_ack p.ack).handle_chunk c).1,
          (let buffer := specDrainBuffer ((s.handle_ack p.ack).handle_chunk c).2
           let conn1 := if buffer = [] then conn else conn.send buffer
           if specSawEof ((s.handle_ack p.ack).handle_chunk c).2 then
             conn1.send_finished
           else conn1))) := by
  constructor
  · rintro (h | h)
    · simp [handle_packet_in, h]
    · cases hcs : conn.can_send <;> simp [handle_packet_in, h, hcs]
  · intro c hcs hc
    simp only [handle_packet_in, hcs, hc, if_true]
    rcases hchunk : (s.handle_ack p.ack).handle_chunk c with ⟨s2, cs⟩
    simp only [collectChunks_eq]
    by_cases hbuf : specDrainBuffer cs = []
    · have hlen : ¬ (specDrainBuffer cs).length > 0 := by simp [hbuf]
      cases hfin : specSawEof cs <;> simp [hlen, hbuf, hfin]
    · have hlen : (specDrainBuffer cs).length > 0 :=
        List.length_pos.mpr hbuf
      cases hfin : specSawEof cs <;> simp [hlen, hbuf, hfin]

/-- Witness for C5: a closed bridge on one packet, and an open bridge on a
packet carrying the chunk `(0, [5])` from the initial transport state. -/
theorem claim_C5_handle_packet_in_witness :
    (handle_packet_in ⟨1, some ⟨0, [5]⟩⟩ ⟨0, 0, [], 0, [], false⟩ ⟨false, [], false⟩ =
      ((⟨0, 0, [], 0, [], false⟩ : WwrState).handle_ack 1, ⟨false, [], false⟩)) ∧
    (handle_packet_in ⟨1, some ⟨0, [5]⟩⟩ ⟨0, 0, [], 0, [], false⟩ ⟨true, [], false⟩ =
      ((((⟨0, 0, [], 0, [], false⟩ : WwrState).handle_ack 1).handle_chunk
          ⟨0, [5]⟩).1,
        (let buffer := specDrainBuffer
          ((((⟨0, 0, [], 0, [], false⟩ : WwrState).handle_ack 1).handle_chunk
            ⟨0, [5]⟩)).2
         let conn1 := if buffer = [] then (⟨true, [], false⟩ : TcpChunker)
           else TcpChunker.send ⟨true, [], false⟩ buffer
         if specSawEof
            ((((⟨0, 0, [], 0, [], false⟩ : WwrState).handle_ack 1).handle_chunk
              ⟨0, [5]⟩)).2 then
           conn1.send_finished
         else conn1))) :=
  ⟨(claim_C5_handle_packet_in ⟨1, some ⟨0, [5]⟩⟩ ⟨0, 0, [], 0, [], false⟩
      ⟨false, [], false⟩).1 (Or.inl rfl),
    (claim_C5_handle_packet_in ⟨1, some ⟨0, [5]⟩⟩ ⟨0, 0, [], 0, [], false⟩
      ⟨true, [], false⟩).2 ⟨0, [5]⟩ rfl rfl⟩

theorem utf8SeqLen_bounds : ∀ (l : List Nat) (k : Nat), utf8SeqLen l = some k →
    1 ≤ k ∧ k ≤ l.length := by
  intro l k h
  rcases l with _ | ⟨b0, rest⟩
  · simp [utf8SeqLen] at h
  · rw [utf8SeqLen] at h
    simp only [List.length_cons]
    split_ifs at h <;> try exact Option.noConfusion h
    all_goals
      first
      | (injection h with hk; omega)
      | (simp only [] at h
         split_ifs at h <;> try exact Option.noConfusion h
         all_goals (injection h with hk; omega))

theorem utf8LossyAux_of_valid : ∀ fuel l, l.length ≤ fuel →
    validUtf8Aux fuel l = true → utf8LossyAux fuel l = l := by
  intro fuel
  induction fuel with
  | zero =>
    intro l hl _
    have : l = [] := by
      cases l
      · rfl
      · simp at hl
    subst this
    rfl
  | succ fuel ih =>
    intro l hl hv
    rcases l with _ | ⟨b, rest⟩
    · rfl
    · rcases hk : utf8SeqLen (b :: rest) with _ | k
      · rw [validUtf8Aux, hk] at hv
        simp at hv
      · rw [validUtf8Aux, hk] at hv
        simp only at hv
        obtain ⟨hk1, hk2⟩ := utf8SeqLen_bounds _ _ hk
        rw [utf8LossyAux, hk]
        simp only
        rw [ih ((b :: rest).drop k)
          (by simp only [List.length_drop, List.length_cons] at hk2 hl ⊢; omega) hv]
        exact List.take_append_drop k (b :: rest)

theorem utf8Lossy_of_valid (l : List Nat) (h : validUtf8 l = true) :
    utf8Lossy l = l :=
  utf8LossyAux_of_valid l.length l (le_refl _) h

/-- C7: the establishment response body is tag `0` with a big-endian 16-bit
session id and 32-bit start sequence for `Success`, and tag `1` followed by
the raw message bytes for `Failure`; decoding the encoded body restores any
`Success`, and any `Failure` whose message is valid UTF-8. -/
theorem claim_C7_response_body_roundtrip :
    (∀ id seq, EstablishResponse.dns_encode (.Success id seq) =
      .ok [0, id / 2 ^ 8 % 256, id % 256, seq / 2 ^ 24 % 256, seq / 2 ^ 16 % 256,
        seq / 2 ^ 8 % 256, seq % 256]) ∧
    (∀ message, EstablishResponse.dns_encode (.Failure message) =
      .ok (1 :: message)) ∧
    (∀ id seq, id < 2 ^ 16 → seq < 2 ^ 32 →
      ∃ bytes, EstablishResponse.dns_encode (.Success id seq) = .ok bytes ∧
        EstablishResponse.dns_decode bytes = .ok (.Success id seq, [])) ∧
    (∀ message, validUtf8 message = true →
      ∃ bytes, EstablishResponse.dns_encode (.Failure message) = .ok bytes ∧
        EstablishResponse.dns_decode bytes = .ok (.Failure message, [])) := by
  refine ⟨fun id seq => rfl, fun message => rfl, ?_, ?_⟩
  · intro id seq hid hseq
    refine ⟨_, rfl, ?_⟩
    simp only [EstablishResponse.dns_decode, decU8, decU16, decU32]
    simp only [Except.ok.injEq, Prod.mk.injEq, EstablishResponse.Success.injEq]
    refine ⟨⟨?_, ?_⟩, trivial⟩ <;> omega
  · intro message hvalid
    refine ⟨_, rfl, ?_⟩
    simp [EstablishResponse.dns_decode, decU8, utf8Lossy_of_valid message hvalid]

/-- Witness for C7 at session id `0xABCD`, sequence `0x12345678`, and the
failure message bytes of `"ok"`. -/
theorem claim_C7_response_body_roundtrip_witness :
    (∃ bytes, EstablishResponse.dns_encode (.Success 43981 305419896) = .ok bytes ∧
      EstablishResponse.dns_decode bytes = .ok (.Success 43981 305419896, [])) ∧
    (∃ bytes, EstablishResponse.dns_encode (.Failure [111, 107]) = .ok bytes ∧
      EstablishResponse.dns_decode bytes = .ok (.Failure [111, 107], [])) :=
  ⟨claim_C7_response_body_roundtrip.2.2.1 43981 305419896 (by decide) (by decide),
    claim_C7_response_body_roundtrip.2.2.2 [111, 107] (by decide)⟩

theorem two_pow_mul_lor_add (n : Nat) :
    ∀ a b : Nat, b < 2 ^ n → (2 ^ n * a) ||| b = 2 ^ n * a + b := by
  induction n with
  | zero =>
    intro a b hb
    have hb0 : b = 0 := by omega
    subst hb0
    simp
  | succ n ih =>
    intro a b hb
    have hp : (2 : Nat) ^ (n + 1) = 2 * 2 ^ n := by ring
    have hb2 : b / 2 < 2 ^ n := by omega
    have key : 2 * (2 ^ n * a) = 2 ^ (n + 1) * a := by ring
    have e1 : 2 ^ (n + 1) * a = Nat.bit false (2 ^ n * a) := by
      rw [Nat.bit_val]
      simp
      ring
    have e2 : b = Nat.bit (decide (b % 2 = 1)) (b / 2) := by
      rw [Nat.bit_val]
      rcases Nat.mod_two_eq_zero_or_one b with h | h <;> simp [h] <;> omega
    calc 2 ^ (n + 1) * a ||| b
        = Nat.bit false (2 ^ n * a) ||| Nat.bit (decide (b % 2 = 1)) (b / 2) := by
          rw [← e1, ← e2]
      _ = Nat.bit (false || decide (b % 2 = 1)) (2 ^ n * a ||| b / 2) :=
          Nat.lor_bit false (2 ^ n * a) (decide (b % 2 = 1)) (b / 2)
      _ = Nat.bit (decide (b % 2 = 1)) (2 ^ n * a + b / 2) := by
          rw [ih a (b / 2) hb2]
          simp
      _ = 2 ^ (n + 1) * a + b := by
          rw [Nat.bit_val]
          rcases Nat.mod_two_eq_zero_or_one b with h | h <;> simp [h] <;> omega

theorem byte_shift_lt (b m : Nat) (hb : b < 256) : b * 2 ^ m < 2 ^ (8 + m) := by
  have h : (2 : Nat) ^ (8 + m) = 256 * 2 ^ m := by
    rw [pow_add]
    norm_num
  rw [h]
  exact mul_lt_mul_of_pos_right hb (pow_pos (by norm_num) m)

theorem lorChain8 (b0 b1 b2 b3 b4 b5 b6 b7 : Nat)
    (H0 : b0 < 256) (H1 : b1 < 256) (H2 : b2 < 256) (H3 : b3 < 256)
    (H4 : b4 < 256) (H5 : b5 < 256) (H6 : b6 < 256) (H7 : b7 < 256) :
    b0 <<< 56 ||| b1 <<< 48 ||| b2 <<< 40 ||| b3 <<< 32 ||| b4 <<< 24 |||
      b5 <<< 16 ||| b6 <<< 8 ||| b7 =
      ((((((b0 * 256 + b1) * 256 + b2) * 256 + b3) * 256 + b4) * 256 + b5) * 256 + b6)
        * 256 + b7 := by
  simp only [Nat.shiftLeft_eq]
  have t1 : b0 * 2 ^ 56 ||| b1 * 2 ^ 48 = 2 ^ 56 * b0 + b1 * 2 ^ 48 := by
    rw [show b0 * 2 ^ 56 = 2 ^ 56 * b0 from by ring,
      two_pow_mul_lor_add 56 b0 (b1 * 2 ^ 48) (by simpa using byte_shift_lt b1 48 H1)]
  rw [t1]
  have t2 : (2 ^ 56 * b0 + b1 * 2 ^ 48) ||| b2 * 2 ^ 40
      = 2 ^ 48 * (b0 * 2 ^ 8 + b1) + b2 * 2 ^ 40 := by
    rw [show 2 ^ 56 * b0 + b1 * 2 ^ 48 = 2 ^ 48 * (b0 * 2 ^ 8 + b1) from by ring,
      two_pow_mul_lor_add 48 _ (b2 * 2 ^ 40) (by simpa using byte_shift_lt b2 40 H2)]
  rw [t2]
  have t3 : (2 ^ 48 * (b0 * 2 ^ 8 + b1) + b2 * 2 ^ 40) ||| b3 * 2 ^ 32
      = 2 ^ 40 * (b0 * 2 ^ 16 + b1 * 2 ^ 8 + b2) + b3 * 2 ^ 32 := by
    rw [show 2 ^ 48 * (b0 * 2 ^ 8 + b1) + b2 * 2 ^ 40
        = 2 ^ 40 * (b0 * 2 ^ 16 + b1 * 2 ^ 8 + b2) from by ring,
      two_pow_mul_lor_add 40 _ (b3 * 2 ^ 32) (by simpa using byte_shift_lt b3 32 H3)]
  rw [t3]
  have t4 : (2 ^ 40 * (b0 * 2 ^ 16 + b1 * 2 ^ 8 + b2) + b3 * 2 ^ 32) ||| b4 * 2 ^ 24
      = 2 ^ 32 * (b0 * 2 ^ 24 + b1 * 2 ^ 16 + b2 * 2 ^ 8 + b3) + b4 * 2 ^ 24 := by
    rw [show 2 ^ 40 * (b0 * 2 ^ 16 + b1 * 2 ^ 8 + b2) + b3 * 2 ^ 32
        = 2 ^ 32 * (b0 * 2 ^ 24 + b1 * 2 ^ 16 + b2 * 2 ^ 8 + b3) from by ring,
      two_pow_mul_lor_add 32 _ (b4 * 2 ^ 24) (by simpa using byte_shift_lt b4 24 H4)]
  rw [t4]
  have t5 : (2 ^ 32 * (b0 * 2 ^ 24 + b1 * 2 ^ 16 + b2 * 2 ^ 8 + b3) + b4 * 2 ^ 24) |||
        b5 * 2 ^ 16
      = 2 ^ 24 * (b0 * 2 ^ 32 + b1 * 2 ^ 24 + b2 * 2 ^ 16 + b3 * 2 ^ 8 + b4) +
        b5 * 2 ^ 16 := by
    rw [show 2 ^ 32 * (b0 * 2 ^ 24 + b1 * 2 ^ 16 + b2 * 2 ^ 8 + b3) + b4 * 2 ^ 24
        = 2 ^ 24 * (b0 * 2 ^ 32 + b1 * 2 ^ 24 + b2 * 2 ^ 16 + b3 * 2 ^ 8 + b4)
        from by ring,
      two_pow_mul_lor_add 24 _ (b5 * 2 ^ 16) (by simpa using byte_shift_lt b5 16 H5)]
  rw [t5]
  have t6 : (2 ^ 24 * (b0 * 2 ^ 32 + b1 * 2 ^ 24 + b2 * 2 ^ 16 + b3 * 2 ^ 8 + b4) +
        b5 * 2 ^ 16) ||| b6 * 2 ^ 8
      = 2 ^ 16 * (b0 * 2 ^ 40 + b1 * 2 ^ 32 + b2 * 2 ^ 24 + b3 * 2 ^ 16 + b4 * 2 ^ 8 +
        b5) + b6 * 2 ^ 8 := by
    rw [show 2 ^ 24 * (b0 * 2 ^ 32 + b1 * 2 ^ 24 + b2 * 2 ^ 16 + b3 * 2 ^ 8 + b4) +
          b5 * 2 ^ 16
        = 2 ^ 16 * (b0 * 2 ^ 40 + b1 * 2 ^ 32 + b2 * 2 ^ 24 + b3 * 2 ^ 16 + b4 * 2 ^ 8 +
          b5) from by ring,
      two_pow_mul_lor_add 16 _ (b6 * 2 ^ 8) (by simpa using byte_shift_lt b6 8 H6)]
  rw [t6]
  have t7 : (2 ^ 16 * (b0 * 2 ^ 40 + b1 * 2 ^ 32 + b2 * 2 ^ 24 + b3 * 2 ^ 16 +
        b4 * 2 ^ 8 + b5) + b6 * 2 ^ 8) ||| b7
      = 2 ^ 8 * (b0 * 2 ^ 48 + b1 * 2 ^ 40 + b2 * 2 ^ 32 + b3 * 2 ^ 24 + b4 * 2 ^ 16 +
        b5 * 2 ^ 8 + b6) + b7 := by
    rw [show 2 ^ 16 * (b0 * 2 ^ 40 + b1 * 2 ^ 32 + b2 * 2 ^ 24 + b3 * 2 ^ 16 +
          b4 * 2 ^ 8 + b5) + b6 * 2 ^ 8
        = 2 ^ 8 * (b0 * 2 ^ 48 + b1 * 2 ^ 40 + b2 * 2 ^ 32 + b3 * 2 ^ 24 + b4 * 2 ^ 16 +
          b5 * 2 ^ 8 + b6) from by ring,
      two_pow_mul_lor_add 8 _ b7 (by simpa using H7)]
  rw [t7]
  ring

theorem beBytes_four (v : Nat) :
    beBytes 4 v = [v / 2 ^ 24 % 256, v / 2 ^ 16 % 256, v / 2 ^ 8 % 256, v % 256] := by
  norm_num [beBytes]

/-- C8: for every password byte string and epoch time, `password_proof`
equals the first eight bytes of the SHA-1 digest of
`password ∥ decimal(t) ∥ password`, read big-endian as an unsigned 64-bit
integer. -/
theorem claim_C8_password_proof_bytes (password : List Nat) (t : Nat) :
    password_proof password t =
      beWord ((sha1 (password ++ asciiDecimal t ++ password)).take 8) := by
  rcases hst : (chunks64 (sha1Pad (password ++ asciiDecimal t ++ password))).foldl sha1Chunk
      (0x67452301, 0xEFCDAB89, 0x98BADCFE, 0x10325476, 0xC3D2E1F0) with
    ⟨h0, h1, h2, h3, h4⟩
  have hsha : sha1 (password ++ asciiDecimal t ++ password) =
      beBytes 4 h0 ++ beBytes 4 h1 ++ beBytes 4 h2 ++ beBytes 4 h3 ++ beBytes 4 h4 := by
    simp only [sha1, hst]
  simp only [password_proof, beWord, hsha, beBytes_four, List.cons_append,
    List.nil_append]
  simp
  rw [lorChain8 _ _ _ _ _ _ _ _ (Nat.mod_lt _ (by norm_num)) (Nat.mod_lt _ (by norm_num))
    (Nat.mod_lt _ (by norm_num)) (Nat.mod_lt _ (by norm_num)) (Nat.mod_lt _ (by norm_num))
    (Nat.mod_lt _ (by norm_num)) (Nat.mod_lt _ (by norm_num)) (Nat.mod_lt _ (by norm_num))]

/-- C4: `establish_response` fails when the registry has no record code for
the question's record type and the requested response encoding (and
propagates a failed query parse); on success the result is the query
message with one answer appended carrying the question's owner domain,
type and class, TTL `0`, and the response encoded through the DNS wire
codec and then the record code, with `answer_count := 1` and the response
flag set and everything else unchanged. -/
theorem claim_C4_establish_response (reg : RecordType → Label → Option RecordCode)
    (query : Message) (host : Domain) (resp : EstablishResponse) :
    (∀ e, EstablishQuery.from_query query host = .error e →
      establish_response reg query host resp = .error e) ∧
    (∀ equery, EstablishQuery.from_query query host = .ok equery →
      reg (query.questions.headD default).record_type equery.response_encoding = none →
      establish_response reg query host resp = .error "no response encoding") ∧
    (∀ m, establish_response reg query host resp = .ok m →
      ∃ equery code bytes body,
        EstablishQuery.from_query query host = .ok equery ∧
        reg (query.questions.headD default).record_type equery.response_encoding =
          some code ∧
        EstablishResponse.dns_encode resp = .ok bytes ∧
        code.encode_body bytes = .ok body ∧
        m.questions = query.questions ∧
        m.authorities = query.authorities ∧
        m.additional = query.additional ∧
        m.answers = query.answers ++
          [{ header := { domain := (query.questions.headD default).domain
                         record_type := (query.questions.headD default).record_type
                         record_class := (query.questions.headD default).record_class
                         ttl := 0 }
             body := body }] ∧
        m.header = { query.header with answer_count := 1, is_response := true }) := by
  refine ⟨?_, ?_, ?_⟩
  · intro e he
    simp [establish_response, he]
  · intro equery he hreg
    simp only [establish_response, he]
    rw [hreg]
  · intro m hm
    rcases hq : EstablishQuery.from_query query host with e | equery
    · simp only [establish_response, hq] at hm
      exact Except.noConfusion hm
    · simp only [establish_response, hq] at hm
      rcases hreg : reg (query.questions.headD default).record_type
          equery.response_encoding with _ | code
      · simp only [hreg] at hm
        exact Except.noConfusion hm
      · simp only [hreg] at hm
        rcases henc : EstablishResponse.dns_encode resp with e2 | bytes
        · simp only [henc] at hm
          exact Except.noConfusion hm
        · simp only [henc] at hm
          rcases hbody : code.encode_body bytes with e3 | body
          · simp only [hbody] at hm
            exact Except.noConfusion hm
          · simp only [hbody, Except.ok.injEq] at hm
            subst hm
            exact ⟨equery, code, bytes, body, rfl, hreg, rfl, hbody, rfl, rfl, rfl,
              rfl, rfl⟩

/-- Witness for C4: a query without questions propagates the parse error; an
empty registry yields the encoding error; a singleton identity registry
produces the appended answer. -/
theorem claim_C4_establish_response_witness :
    (establish_response (fun _ _ => none)
      ⟨⟨0, false, .Query, false, false, false, false, .NoError, 1, 0, 0, 0⟩,
        [], [], [], []⟩
      exampleRoot (.Failure []) = .error "not an establish query") ∧
    (establish_response (fun _ _ => none)
      ⟨⟨0, false, .Query, false, false, false, false, .NoError, 1, 0, 0, 0⟩,
        [⟨exampleDomain, 16, 1⟩], [], [], []⟩
      exampleRoot (.Failure []) = .error "no response encoding") ∧
    (∃ equery code bytes body,
      EstablishQuery.from_query
        ⟨⟨0, false, .Query, false, false, false, false, .NoError, 1, 0, 0, 0⟩,
          [⟨exampleDomain, 16, 1⟩], [], [], []⟩ exampleRoot = .ok equery ∧
      (fun (_ : RecordType) (_ : Label) =>
        some (⟨fun b => .ok b⟩ : RecordCode)) 16 "raw".data = some code ∧
      EstablishResponse.dns_encode (.Success 1 2) = .ok bytes ∧
      code.encode_body bytes = .ok body ∧
      ([⟨exampleDomain, 16, 1⟩] : List Question) = [⟨exampleDomain, 16, 1⟩] ∧
      ([] : List Record) = [] ∧
      ([] : List Record) = [] ∧
      ([⟨⟨exampleDomain, 16, 1, 0⟩, [0, 0, 1, 0, 0, 0, 2]⟩] : List Record) =
        [] ++ [⟨⟨exampleDomain, 16, 1, 0⟩, body⟩] ∧
      (⟨0, true, .Query, false, false, false, false, .NoError, 1, 1, 0, 0⟩ : Header) =
        ⟨0, true, .Query, false, false, false, false, .NoError, 1, 1, 0, 0⟩) := by
  refine ⟨?_, ?_, ?_⟩
  · exact (claim_C4_establish_response (fun _ _ => none) _ exampleRoot (.Failure [])).1
      "not an establish query" rfl
  · exact (claim_C4_establish_response (fun _ _ => none) _ exampleRoot (.Failure [])).2.1
      exampleQuery rfl rfl
  · have h := (claim_C4_establish_response
        (fun _ _ => some (⟨fun b => .ok b⟩ : RecordCode))
        ⟨⟨0, false, .Query, false, false, false, false, .NoError, 1, 0, 0, 0⟩,
          [⟨exampleDomain, 16, 1⟩], [], [], []⟩
        exampleRoot (.Success 1 2)).2.2
      ⟨⟨0, true, .Query, false, false, false, false, .NoError, 1, 1, 0, 0⟩,
        [⟨exampleDomain, 16, 1⟩],
        [⟨⟨exampleDomain, 16, 1, 0⟩, [0, 0, 1, 0, 0, 0, 2]⟩], [], []⟩
      rfl
    obtain ⟨equery, code, bytes, body, h1, h2, h3, h4, h5, h6, h7, h8, h9⟩ := h
    exact ⟨equery, code, bytes, body, h1, h2, h3, h4, h5, h6, h7, h8, h9⟩

/-- C3: `from_domain` fails when the domain does not end with the server
root (label-wise, case-insensitive); fails when fewer than 8 labels remain
before the root suffix; fails whenever any numeric field does not parse
(proof in hexadecimal, the others in decimal); and on success the fields
are taken positionally from labels 0 through 6 with the target host being
the labels between the fixed prefix and the root suffix. -/
theorem claim_C3_from_domain_errors (d root : Domain) :
    (domain_ends_with d root = false →
      EstablishQuery.from_domain d root = .error "incorrect host domain") ∧
    (domain_ends_with d root = true → d.parts.length - root.parts.length < 8 →
      EstablishQuery.from_domain d root = .error "not enough labels") ∧
    (domain_ends_with d root = true → ¬ d.parts.length - root.parts.length < 8 →
      (parseUnsigned 10 65536 (d.parts.getD 1 []) = none ∨
       parseUnsigned 10 65536 (d.parts.getD 3 []) = none ∨
       parseUnsigned 10 65536 (d.parts.getD 4 []) = none ∨
       parseUnsigned 16 (2 ^ 64) (d.parts.getD 5 []) = none ∨
       parseUnsigned 10 65536 (d.parts.getD 6 []) = none) →
      EstablishQuery.from_domain d root = .error "invalid number in domain") ∧
    (∀ q, EstablishQuery.from_domain d root = .ok q →
      domain_ends_with d root = true ∧
      8 ≤ d.parts.length - root.parts.length ∧
      ∃ mtu qw rw2 pf pt,
        parseUnsigned 10 65536 (d.parts.getD 1 []) = some mtu ∧
        parseUnsigned 10 65536 (d.parts.getD 3 []) = some qw ∧
        parseUnsigned 10 65536 (d.parts.getD 4 []) = some rw2 ∧
        parseUnsigned 16 (2 ^ 64) (d.parts.getD 5 []) = some pf ∧
        parseUnsigned 10 65536 (d.parts.getD 6 []) = some pt ∧
        q = { response_encoding := (lowerLabel (d.parts.getD 0 [])).drop 1
              mtu := mtu
              name_encoding := lowerLabel (d.parts.getD 2 [])
              query_window := qw
              response_window := rw2
              proof := pf
              port := pt
              host := ⟨(d.parts.take (d.parts.length - root.parts.length)).drop 7⟩ }) := by
  refine ⟨?_, ?_, ?_, ?_⟩
  · intro h
    simp [EstablishQuery.from_domain, h]
  · intro h1 h2
    simp [EstablishQuery.from_domain, h1, h2]
  · intro h1 h2 h3
    unfold EstablishQuery.from_domain
    rw [if_neg (by simp [h1]), if_neg h2]
    rcases hm : parseUnsigned 10 65536 (d.parts.getD 1 []) with _ | mtu <;>
      rcases hqw : parseUnsigned 10 65536 (d.parts.getD 3 []) with _ | qw <;>
      rcases hrw : parseUnsigned 10 65536 (d.parts.getD 4 []) with _ | rw2 <;>
      rcases hpf : parseUnsigned 16 (2 ^ 64) (d.parts.getD 5 []) with _ | pf <;>
      rcases hpt : parseUnsigned 10 65536 (d.parts.getD 6 []) with _ | pt <;>
      simp_all
  · intro q hq
    rcases hends : domain_ends_with d root with _ | _
    · rw [EstablishQuery.from_domain.eq_def, if_pos (by simp [hends])] at hq
      exact Except.noConfusion hq
    · by_cases hlen : d.parts.length - root.parts.length < 8
      · rw [EstablishQuery.from_domain.eq_def, if_neg (by simp [hends]),
          if_pos hlen] at hq
        exact Except.noConfusion hq
      · refine ⟨rfl, by omega, ?_⟩
        rw [EstablishQuery.from_domain.eq_def, if_neg (by simp [hends]),
          if_neg hlen] at hq
        rcases hm : parseUnsigned 10 65536 (d.parts.getD 1 []) with _ | mtu <;>
          rcases hqw : parseUnsigned 10 65536 (d.parts.getD 3 []) with _ | qw <;>
          rcases hrw : parseUnsigned 10 65536 (d.parts.getD 4 []) with _ | rw2 <;>
          rcases hpf : parseUnsigned 16 (2 ^ 64) (d.parts.getD 5 []) with _ | pf <;>
          rcases hpt : parseUnsigned 10 65536 (d.parts.getD 6 []) with _ | pt <;>
          rw [hm, hqw, hrw, hpf, hpt] at hq <;>
          simp only [Domain.from_parts, Except.map, Except.ok.injEq, reduceCtorEq]
            at hq <;>
          try exact ⟨mtu, qw, rw2, pf, pt, rfl, rfl, rfl, rfl, rfl, hq.symm⟩

/-- Witness for C3: a wrong root, a too-short domain, a non-numeric mtu
label, and the successful conformance fixture. -/
theorem claim_C3_from_domain_errors_witness :
    (EstablishQuery.from_domain exampleDomain ⟨["nope".data]⟩ =
      .error "incorrect host domain") ∧
    (EstablishQuery.from_domain ⟨["eraw".data, "baz".data, "proxy".data, "com".data]⟩
      exampleRoot = .error "not enough labels") ∧
    (EstablishQuery.from_domain
      ⟨["eraw".data, "abc".data, "b64".data, "64".data, "32".data, "913379".data,
        "1337".data, "foo".data, "bob".data, "com".data, "baz".data, "proxy".data,
        "com".data]⟩ exampleRoot = .error "invalid number in domain") ∧
    (domain_ends_with exampleDomain exampleRoot = true ∧
      8 ≤ exampleDomain.parts.length - exampleRoot.parts.length ∧
      ∃ mtu qw rw2 pf pt,
        parseUnsigned 10 65536 (exampleDomain.parts.getD 1 []) = some mtu ∧
        parseUnsigned 10 65536 (exampleDomain.parts.getD 3 []) = some qw ∧
        parseUnsigned 10 65536 (exampleDomain.parts.getD 4 []) = some rw2 ∧
        parseUnsigned 16 (2 ^ 64) (exampleDomain.parts.getD 5 []) = some pf ∧
        parseUnsigned 10 65536 (exampleDomain.parts.getD 6 []) = some pt ∧
        exampleQuery =
          { response_encoding := (lowerLabel (exampleDomain.parts.getD 0 [])).drop 1
            mtu := mtu
            name_encoding := lowerLabel (exampleDomain.parts.getD 2 [])
            query_window := qw
            response_window := rw2
            proof := pf
            port := pt
            host := ⟨(exampleDomain.parts.take
              (exampleDomain.parts.length - exampleRoot.parts.length)).drop 7⟩ }) :=
  ⟨(claim_C3_from_domain_errors exampleDomain ⟨["nope".data]⟩).1 (by decide),
    (claim_C3_from_domain_errors _ exampleRoot).2.1 (by decide) (by decide),
    (claim_C3_from_domain_errors _ exampleRoot).2.2.1 (by decide) (by decide)
      (Or.inl rfl),
    (claim_C3_from_domain_errors exampleDomain exampleRoot).2.2.2 exampleQuery rfl⟩

/-- C1: an establish query with in-range numeric fields, lowercase encoding
names, and a non-empty target host round-trips through `to_domain` and
`from_domain` for every server root; in particular the conformance fixture
domain parses to the fixture query and re-encoding it reproduces the
identical domain. -/
theorem claim_C1_establish_roundtrip :
    (∀ (q : EstablishQuery) (root : Domain),
      q.mtu < 65536 → q.query_window < 65536 → q.response_window < 65536 →
      q.port < 65536 → q.proof < 2 ^ 64 →
      lowerLabel q.response_encoding = q.response_encoding →
      lowerLabel q.name_encoding = q.name_encoding →
      q.host.parts ≠ [] →
      ∃ d : Domain, q.to_domain root = .ok d ∧
        EstablishQuery.from_domain d root = .ok q) ∧
    EstablishQuery.from_domain exampleDomain exampleRoot = .ok exampleQuery ∧
    exampleQuery.to_domain exampleRoot = .ok exampleDomain := by
  refine ⟨?_, rfl, rfl⟩
  intro q root hmtu hqw hrw hport hproof hre hne hhost
  have hlp : 0 < q.host.parts.length := List.length_pos.mpr hhost
  have hplen : (buildPre q).length = 7 + q.host.parts.length := by
    simp [buildPre]
    omega
  have hlen : (Domain.mk (buildLabels q root)).parts.length - root.parts.length
      = 7 + q.host.parts.length := by
    show (buildLabels q root).length - root.parts.length = 7 + q.host.parts.length
    rw [buildLabels, List.length_append, hplen]
    omega
  have hends : domain_ends_with ⟨buildLabels q root⟩ root = true := by
    simp only [domain_ends_with, decide_eq_true_eq]
    constructor
    · show root.parts.length ≤ (buildLabels q root).length
      rw [buildLabels, List.length_append]
      omega
    · show ((buildLabels q root).map lowerLabel).drop
          ((buildLabels q root).length - root.parts.length) = root.parts.map lowerLabel
      rw [buildLabels, List.map_append]
      rw [show (buildPre q ++ root.parts).length - root.parts.length
          = ((buildPre q).map lowerLabel).length from by
        simp [List.length_append, List.length_map]]
      exact List.drop_left _ _
  refine ⟨⟨buildLabels q root⟩, rfl, ?_⟩
  rw [EstablishQuery.from_domain.eq_def]
  rw [if_neg (by simp [hends]), if_neg (by rw [hlen]; omega)]
  have hp1 : parseUnsigned 10 65536
      ((⟨buildLabels q root⟩ : Domain).parts.getD 1 []) = some q.mtu := by
    show parseUnsigned 10 65536 (fmtNat 10 q.mtu) = some q.mtu
    exact parseUnsigned_fmtNat 10 65536 q.mtu (by norm_num) (by norm_num)
      digitVal_digitChar10 hmtu
  have hp3 : parseUnsigned 10 65536
      ((⟨buildLabels q root⟩ : Domain).parts.getD 3 []) = some q.query_window := by
    show parseUnsigned 10 65536 (fmtNat 10 q.query_window) = some q.query_window
    exact parseUnsigned_fmtNat 10 65536 q.query_window (by norm_num) (by norm_num)
      digitVal_digitChar10 hqw
  have hp4 : parseUnsigned 10 65536
      ((⟨buildLabels q root⟩ : Domain).parts.getD 4 []) = some q.response_window := by
    show parseUnsigned 10 65536 (fmtNat 10 q.response_window) = some q.response_window
    exact parseUnsigned_fmtNat 10 65536 q.response_window (by norm_num) (by norm_num)
      digitVal_digitChar10 hrw
  have hp5 : parseUnsigned 16 (2 ^ 64)
      ((⟨buildLabels q root⟩ : Domain).parts.getD 5 []) = some q.proof := by
    show parseUnsigned 16 (2 ^ 64) (fmtNat 16 q.proof) = some q.proof
    exact parseUnsigned_fmtNat 16 (2 ^ 64) q.proof (by norm_num) (by norm_num)
      digitVal_digitChar16 hproof
  have hp6 : parseUnsigned 10 65536
      ((⟨buildLabels q root⟩ : Domain).parts.getD 6 []) = some q.port := by
    show parseUnsigned 10 65536 (fmtNat 10 q.port) = some q.port
    exact parseUnsigned_fmtNat 10 65536 q.port (by norm_num) (by norm_num)
      digitVal_digitChar10 hport
  rw [hp1, hp3, hp4, hp5, hp6]
  have hfield0 : (lowerLabel ((⟨buildLabels q root⟩ : Domain).parts.getD 0 [])).drop 1
      = q.response_encoding := by
    show (lowerLabel ('e' :: q.response_encoding)).drop 1 = q.response_encoding
    simp only [lowerLabel, List.map_cons, List.drop_succ_cons, List.drop_zero]
    exact hre
  have hfield2 : lowerLabel ((⟨buildLabels q root⟩ : Domain).parts.getD 2 [])
      = q.name_encoding := by
    show lowerLabel q.name_encoding = q.name_encoding
    exact hne
  have hhostf : ((⟨buildLabels q root⟩ : Domain).parts.take
      ((⟨buildLabels q root⟩ : Domain).parts.length - root.parts.length)).drop 7
      = q.host.parts := by
    rw [hlen]
    show ((buildLabels q root).take (7 + q.host.parts.length)).drop 7 = q.host.parts
    rw [buildLabels, ← hplen, List.take_left]
    rfl
  simp only [Domain.from_parts, Except.map, Except.ok.injEq]
  rw [hfield0, hfield2, hhostf]

/-- Witness for C1: the general round-trip applied to the conformance
fixture query and root. -/
theorem claim_C1_establish_roundtrip_witness :
    ∃ d : Domain, exampleQuery.to_domain exampleRoot = .ok d ∧
      EstablishQuery.from_domain d exampleRoot = .ok exampleQuery :=
  claim_C1_establish_roundtrip.1 exampleQuery exampleRoot (by decide) (by decide)
    (by decide) (by decide) (by decide) (by decide) (by decide) (by decide)
